import Mathlib

/-!
Verification of the journal-AI confidence-review pipeline.

This file shallowly embeds the components of the repository that the
checked claims concern:

* `OCRFormatter.detect_low_confidence_items` (src/chat/ocr_formatter.py) —
  confidence triage over a structured OCR record;
* the low-confidence review state machine
  (`ChatSession.set_low_confidence_review_state` in src/chat/models.py and
  `_process_edited_item_stream` / `_start_review_from_session_stream` in
  src/chat/function_tools.py);
* `_apply_reviewed_items_to_ocr_data` (src/chat/function_tools.py) — the
  patch applier merging reviewed edits back into a copy of the record;
* `SBERTClient._get_text_hash` / `get_embedding` /
  `_fallback_duplicate_check` (src/sbert_client.py);
* `TodoistClient.get_existing_tasks` / `check_duplicates_intelligently` /
  `_simple_duplicate_check` and the per-task loop of
  `upload_tasks_from_ocr` (src/todoist/todoist_client.py).

Python values flowing through dicts are modelled by the inductive `PyVal`;
Python dicts by insertion-ordered association lists (`dictGet`/`dictSet`);
Python truthiness by `PyVal.truthy`.  Machine floats are modelled by `ℚ`.
Fallible remote calls are modelled by `Except`.
-/

/-- A Python value as it occurs in the OCR data dictionaries: strings,
numbers (floats/ints modelled as `ℚ`), `None`, lists and string-keyed
dicts (insertion-ordered association lists).  Non-numeric, non-string
leaves (e.g. booleans) do not occur in the OCR records the pipeline
produces and are not modelled. -/
inductive PyVal where
  | str (s : String)
  | num (q : ℚ)
  | none
  | list (xs : List PyVal)
  | dict (fs : List (String × PyVal))
deriving Repr

/-- Python truthiness of a `PyVal`: empty string, zero, `None`, empty list
and empty dict are falsy. -/
def PyVal.truthy : PyVal → Bool
  | .str s => s ≠ ""
  | .num q => q ≠ 0
  | .none => false
  | .list xs => !xs.isEmpty
  | .dict fs => !fs.isEmpty

/-- `d.get(k)`: first binding of `k` in an insertion-ordered dict,
`Option.none` when the key is absent. -/
def dictGet (d : List (String × PyVal)) (k : String) : Option PyVal :=
  match d with
  | [] => Option.none
  | (k₁, v₁) :: rest => if k₁ = k then some v₁ else dictGet rest k

/-- `d[k] = v`: replace the binding of `k` in place, or append a new
binding when `k` is absent (Python dicts keep insertion order). -/
def dictSet (d : List (String × PyVal)) (k : String) (v : PyVal) :
    List (String × PyVal) :=
  match d with
  | [] => [(k, v)]
  | (k₁, v₁) :: rest =>
      if k₁ = k then (k, v) :: rest else (k₁, v₁) :: dictSet rest k v

/-- Truthiness of `d.get(k)` (absent key ⇒ `None` ⇒ falsy). -/
def dictGetTruthy (d : List (String × PyVal)) (k : String) : Bool :=
  match dictGet d k with
  | some v => v.truthy
  | Option.none => false

/-! ## Confidence triage: `OCRFormatter.detect_low_confidence_items` -/

/-- A flagged low-confidence item as built by
`detect_low_confidence_items`: the dict appended to
`low_confidence_items`, with keys `text`, `confidence`, `section`,
`field_name`, `item_index`, `original_item`. -/
structure FlaggedItem where
  text : PyVal
  confidence : ℚ
  sectionName : String
  field_name : String
  item_index : ℕ
  original_item : List (String × PyVal)
deriving Repr

/-- The source's `or`-chain
`item.get('task') or item.get('item') or item.get('value') or item.get('text')`
together with the parallel `field_name` conditional: the first field name
in priority order whose value is present and truthy, paired with that
value.  `Option.none` when every candidate field is absent or falsy (in
which case the source's `if text and ... and field_name` guard fails). -/
def resolveFieldAux (item : List (String × PyVal)) :
    List String → Option (String × PyVal)
  | [] => Option.none
  | k :: ks =>
    match dictGet item k with
    | some v => if v.truthy then some (k, v) else resolveFieldAux item ks
    | Option.none => resolveFieldAux item ks

/-- The candidate field names, in the source's priority order. -/
def resolveField (item : List (String × PyVal)) :
    Option (String × PyVal) :=
  resolveFieldAux item ["task", "item", "value", "text"]

/-- The inner `for index, item in enumerate(section_items)` loop of
`detect_low_confidence_items`, started at index `i`.  An item is flagged
when it is a dict, some candidate field resolves to a truthy text, and
`confidence and confidence < threshold` holds — i.e. the `confidence` key
holds a nonzero number below the threshold.  (A truthy non-numeric
`confidence` value would raise a `TypeError` in Python; such records do
not occur and are outside the modelled domain.) -/
def detectItems (sec : String) (τ : ℚ) : ℕ → List PyVal → List FlaggedItem
  | _, [] => []
  | i, it :: rest =>
    (match it with
     | PyVal.dict fs =>
       match resolveField fs, dictGet fs "confidence" with
       | some kv, some (PyVal.num c) =>
           if c ≠ 0 ∧ c < τ then [⟨kv.2, c, sec, kv.1, i, fs⟩] else []
       | _, _ => []
     | _ => []) ++ detectItems sec τ (i + 1) rest

/-- `OCRFormatter.detect_low_confidence_items(data)` with threshold `τ`
(`self.confidence_threshold`): scan every section of the record that is a
non-empty list, in section order, and collect the flagged items. -/
def detectLowConfidenceItems (data : List (String × PyVal)) (τ : ℚ) :
    List FlaggedItem :=
  match data with
  | [] => []
  | (sec, v) :: rest =>
    (match v with
     | PyVal.list items =>
         if items.isEmpty then [] else detectItems sec τ 0 items
     | _ => []) ++ detectLowConfidenceItems rest τ

/-! ## Fallback duplicate detection -/

/-- Python `str.strip()`: remove whitespace from both ends.  Defined by
structural recursion over the character list (Lean's `String.trim` is
extensionally the same but is defined by well-founded recursion on
positions and does not reduce in the kernel). -/
def pyStrip (s : String) : String :=
  ⟨((s.data.dropWhile Char.isWhitespace).reverse.dropWhile
      Char.isWhitespace).reverse⟩

/-- Python `str.lower()`, character-wise (ASCII case mapping — the task
strings of this pipeline are ASCII). -/
def pyLower (s : String) : String :=
  ⟨s.data.map Char.toLower⟩

/-- The normalisation both fallback duplicate checks apply to a task
string: `t.lower().strip()`. -/
def pyNorm (t : String) : String := pyStrip (pyLower t)

/-- `SBERTClient._fallback_duplicate_check(new_tasks, existing_tasks)`:
for each new task, duplicate iff some existing task matches after
`lower().strip()` (the inner loop breaks at the first match ⇒ `any`).
The result dict maps each new task to its flag, in input order. -/
def fallbackDuplicateCheck (new_tasks existing_tasks : List String) :
    List (String × Bool) :=
  new_tasks.map fun t =>
    (t, existing_tasks.any fun e => pyNorm t = pyNorm e)

/-- `TodoistClient._simple_duplicate_check(new_tasks, existing_tasks)` —
textually the same comparison loop as `_fallback_duplicate_check`. -/
def simpleDuplicateCheck (new_tasks existing_tasks : List String) :
    List (String × Bool) :=
  new_tasks.map fun t =>
    (t, existing_tasks.any fun e => pyNorm t = pyNorm e)

/-! ## The low-confidence review state machine -/

/-- An element of the review session's `items` list — a flagged-item dict
as read by `_process_edited_item_stream` (`item['text']` is a string,
`item['confidence']` a number, plus the addressing keys and the
`original_item` snapshot). -/
structure SessionItem where
  text : String
  confidence : ℚ
  sectionName : String
  field_name : String
  item_index : ℕ
  original_item : List (String × PyVal)
deriving Repr

/-- The `low_confidence_review` entry of `session.processing_states`. -/
structure ReviewState where
  items : List SessionItem
  current_index : ℕ
  reviewed_items : List SessionItem
  ocr_data : List (String × PyVal)
  active : Bool
deriving Repr

/-- `ChatSession.set_low_confidence_review_state(items, ocr_data)`
(src/chat/models.py): unconditionally installs a fresh review state with
`current_index = 0`, empty `reviewed_items` and `active = True`. -/
def setLowConfidenceReviewState (items : List SessionItem)
    (ocr_data : List (String × PyVal)) : ReviewState :=
  ⟨items, 0, [], ocr_data, true⟩

/-- One `submit` step, `_process_edited_item_stream(session, item_text)`
(src/chat/function_tools.py): `Option.none` models the early return on a
missing/inactive review state (and the `IndexError` path when
`current_index` is out of range, which the enclosing `except` catches
before any state change).  Otherwise: compare `item_text.strip()` with
`current_item['text'].strip()`; when they differ append a copy of the
current item with the stripped new text and `confidence = 1.0`
(`original_item` carried over by the copy), when equal append the current
item unchanged; then advance `current_index` and clear `active` once it
reaches `len(items)`. -/
def processEditedItem (st : ReviewState) (item_text : String) :
    Option ReviewState :=
  if st.active = false then Option.none
  else
    match st.items.get? st.current_index with
    | Option.none => Option.none
    | some current_item =>
      let user_edited := pyStrip item_text ≠ pyStrip current_item.text
      let entry :=
        if user_edited then
          { current_item with text := pyStrip item_text, confidence := 1 }
        else current_item
      let idx := st.current_index + 1
      some { st with
              reviewed_items := st.reviewed_items ++ [entry],
              current_index := idx,
              active := if st.items.length ≤ idx then false else st.active }

/-- Running a sequence of `submit` calls in order. -/
def runSubmits (st : ReviewState) (texts : List String) :
    Option ReviewState :=
  match texts with
  | [] => some st
  | t :: rest =>
    match processEditedItem st t with
    | some st₁ => runSubmits st₁ rest
    | Option.none => Option.none

/-- The `pending_review` entry of `session.processing_states` as read by
`_start_review_from_session_stream`. -/
structure PendingReview where
  has_items : Bool
  low_confidence_items : List SessionItem
  ocr_data : List (String × PyVal)
deriving Repr

/-- Result indicator for `_start_review_from_session_stream`: which early
return (if any) the stream took. -/
inductive StartResult where
  | noPending
  | noItems
  | started
deriving Repr, DecidableEq

/-- `_start_review_from_session_stream(session)`
(src/chat/function_tools.py): read `pending_review`, reconcile the
`has_items` flag with the actual item list, bail out when there is
nothing to review, and otherwise call
`set_low_confidence_review_state(items, ocr_data)` — unconditionally
replacing whatever review state (active or not) the session held.  The
first component of the result is the session's `low_confidence_review`
state after the call (`cur` being the state before). -/
def startReviewFromSession (pending : Option PendingReview)
    (cur : Option ReviewState) : Option ReviewState × StartResult :=
  match pending with
  | Option.none => (cur, StartResult.noPending)
  | some p =>
    let has_items :=
      if p.has_items ∧ p.low_confidence_items.isEmpty then false
      else if ¬p.has_items ∧ ¬p.low_confidence_items.isEmpty then true
      else p.has_items
    if has_items = false then (cur, StartResult.noItems)
    else if p.low_confidence_items.isEmpty then (cur, StartResult.noItems)
    else
      (some (setLowConfidenceReviewState p.low_confidence_items p.ocr_data),
       StartResult.started)

/-! ## Patch application: `_apply_reviewed_items_to_ocr_data` -/

/-- A reviewed-item dict as read (via `.get`) by
`_apply_reviewed_items_to_ocr_data`: `section` and `item_index` may be
absent, `field_name` defaults to `'task'` (`get('field_name', 'task')`),
`text` is whatever `get('text')` yields, and `confidence` defaults to
`1.0` at use sites (`get('confidence', 1.0)`). -/
structure ReviewedEntry where
  sectionKey : Option String
  item_index : Option ℤ
  field_name : String
  text : PyVal
  confidence : Option ℚ
deriving Repr

/-- The two records the patch loop can reach: `original_data` (the
function's argument, never written) and `updated_data` (the
`copy.deepcopy` of it, which every write targets), plus the `logger.error`
messages emitted by the loop's failure branches. -/
structure ApplyState where
  original : List (String × PyVal)
  updated : List (String × PyVal)
  errors : List String
deriving Repr

/-- `copy.deepcopy`: in the pure value model a deep copy is the value
itself — it shares no structure with the original by construction. -/
def deepcopy (d : List (String × PyVal)) : List (String × PyVal) := d

/-- Python index normalisation for a list of length `n`: negative indices
count from the end. -/
def pyIdx (n : ℕ) (i : ℤ) : ℤ :=
  if 0 ≤ i then i else (n : ℤ) + i

/-- Python list indexing `xs[i]` for an `int` index: non-negative indices
in range, or negative indices counted from the end; anything else raises
`IndexError` (modelled as `Except.error`). -/
def pyGetIndex (xs : List PyVal) (i : ℤ) : Except Unit PyVal :=
  if 0 ≤ pyIdx xs.length i then
    match xs.get? (pyIdx xs.length i).toNat with
    | some v => Except.ok v
    | Option.none => Except.error ()
  else Except.error ()

/-- Python list element assignment `xs[i] = v` at an index already known
to be readable (same index normalisation as `pyGetIndex`). -/
def pySetIndex (xs : List PyVal) (i : ℤ) (v : PyVal) : List PyVal :=
  xs.set (pyIdx xs.length i).toNat v

/-- One iteration of the `for review_item in reviewed_items` loop of
`_apply_reviewed_items_to_ocr_data`.  Guard chain as in the source:
`if section and item_index is not None and updated_data.get(section)`,
then `isinstance(section_items, list) and item_index < len(section_items)`,
then `isinstance(target_item, dict)`.  The happy path writes
`target_item[field_name] = new_text` and
`target_item['confidence'] = review_item.get('confidence', 1.0)` into
`updated_data`; every failure branch only logs (`errors`) and continues.
`Except.error` models the uncaught `IndexError` from
`section_items[item_index]` when the negative index is out of range. -/
def applyOne (s : ApplyState) (r : ReviewedEntry) : Except Unit ApplyState :=
  match r.sectionKey, r.item_index with
  | some sec, some idx =>
    (match dictGet s.updated sec with
     | some sv =>
       if sec ≠ "" ∧ sv.truthy then
         match sv with
         | PyVal.list section_items =>
           if idx < (section_items.length : ℤ) then
             match pyGetIndex section_items idx with
             | Except.error _ => Except.error ()
             | Except.ok (PyVal.dict fs) =>
                 let fs₂ :=
                   dictSet (dictSet fs r.field_name r.text) "confidence"
                     (PyVal.num (r.confidence.getD 1))
                 Except.ok { s with
                   updated := dictSet s.updated sec
                     (PyVal.list (pySetIndex section_items idx
                       (PyVal.dict fs₂))) }
             | Except.ok _ =>
                 Except.ok { s with
                   errors := s.errors ++ ["target-item-not-a-dict"] }
           else
             Except.ok { s with errors := s.errors ++ ["invalid-index"] }
         | _ =>
             Except.ok { s with errors := s.errors ++ ["invalid-index"] }
       else Except.ok { s with errors := s.errors ++ ["missing-data"] }
     | Option.none =>
         Except.ok { s with errors := s.errors ++ ["missing-data"] })
  | _, _ => Except.ok { s with errors := s.errors ++ ["missing-data"] }

/-- The whole `for` loop; the second component records whether an
exception escaped (caught by the function's outer `except`).  At the
point an `IndexError` is raised nothing of the current iteration has been
written yet, so the state at the raise is the pre-iteration state. -/
def applyLoop (s : ApplyState) : List ReviewedEntry → ApplyState × Bool
  | [] => (s, false)
  | r :: rest =>
    match applyOne s r with
    | Except.ok s₁ => applyLoop s₁ rest
    | Except.error _ => (s, true)

/-- `_apply_reviewed_items_to_ocr_data(original_data, reviewed_items)`:
deep-copy the record, run the loop over it, and return the updated copy —
or, when an exception was raised, `original_data` itself (the outer
`except` branch).  The result pairs the value reachable through the
caller's `original_data` reference after the call with the function's
return value. -/
def applyReviewedItems (original_data : List (String × PyVal))
    (reviewed_items : List ReviewedEntry) :
    List (String × PyVal) × List (String × PyVal) :=
  match applyLoop ⟨original_data, deepcopy original_data, []⟩ reviewed_items with
  | (s, true) => (s.original, s.original)
  | (s, false) => (s.original, s.updated)

/-! ## Embedding cache: `SBERTClient._get_text_hash` / `get_embedding` -/

/-- `SBERTClient._get_text_hash(text)`:
`md5(text.encode('utf-8')).hexdigest()` — the digest of the text exactly
as given; no trimming or lowercasing happens before hashing.  `md5` is an
external library function, taken as a parameter. -/
def getTextHash (md5 : String → String) (text : String) : String :=
  md5 text

/-- `SBERTClient.get_embedding(text)` over an explicit cache state
(`self.embedding_cache`): on a key hit return the cached vector and leave
the cache alone; on a miss call the model (`self.model.encode`, the
external parameter `encode`), store the vector under the key, and return
it.  Vectors are modelled as `List ℚ`. -/
def getEmbedding (md5 : String → String) (encode : String → List ℚ)
    (cache : List (String × List ℚ)) (text : String) :
    List ℚ × List (String × List ℚ) :=
  let text_hash := getTextHash md5 text
  match cache.lookup text_hash with
  | some v => (v, cache)
  | Option.none =>
      let v := encode text
      (v, (text_hash, v) :: cache)

/-! ## Todoist client: existing tasks, duplicate check, upload loop -/

/-- A task object returned by the Todoist API, reduced to the attributes
`get_existing_tasks` reads: `content` (via `getattr(task, 'content', '')`)
and the resolved `due.date` chain (`getattr(getattr(task, 'due', ''),
'date', '')`, the empty string when absent). -/
structure TodoistTask where
  content : String
  dueDate : String
deriving Repr

/-- `TodoistClient.get_existing_tasks(due_date)`: the whole body is one
`try`; any exception from the API call yields `[]`.  On success keep the
stripped content of every task whose content is truthy, whose stripped
content is truthy, and whose due date equals `due_date`.  (The defensive
branch for the API returning its tasks nested inside the first list
element concerns a malformed transport shape and is outside the modelled
input type.) -/
def getExistingTasks (fetch : Except String (List TodoistTask))
    (due_date : String) : List String :=
  match fetch with
  | Except.error _ => []
  | Except.ok tasks_list =>
      (tasks_list.filter fun t =>
        t.content ≠ "" ∧ pyStrip t.content ≠ "" ∧ t.dueDate = due_date).map
        fun t => pyStrip t.content

/-- `SBERTClient.check_duplicate_tasks(new_tasks, existing_tasks)` with
the external embedding model and the library cosine-similarity call as
parameters: empty `existing_tasks` ⇒ every new task unique; empty
`new_tasks` ⇒ empty result; otherwise a task is a duplicate iff the
maximum cosine similarity against the existing tasks reaches
`self.similarity_threshold`. -/
def checkDuplicateTasks (encode : String → List ℚ)
    (cosine : List ℚ → List ℚ → ℚ) (threshold : ℚ)
    (new_tasks existing_tasks : List String) : List (String × Bool) :=
  if existing_tasks.isEmpty then new_tasks.map fun t => (t, false)
  else if new_tasks.isEmpty then []
  else new_tasks.map fun t =>
    (t, match (existing_tasks.map fun e => cosine (encode t) (encode e)).max? with
        | some m => threshold ≤ m
        | Option.none => false)

/-- `TodoistClient.check_duplicates_intelligently(new_tasks, due_date)`:
without SBERT, fetch the existing tasks (note: with the default
`due_date="today"`, not the argument) and run the simple check; with
SBERT, fetch the existing tasks and run `check_duplicate_tasks`.  (At
runtime the SBERT call passes a third argument the method does not
accept; the resulting `TypeError` is caught and falls back to the simple
check — with empty existing tasks both paths classify everything as
unique, which is all the claims rely on.) -/
def checkDuplicatesIntelligently (use_sbert : Bool)
    (encode : String → List ℚ) (cosine : List ℚ → List ℚ → ℚ)
    (threshold : ℚ) (fetch : Except String (List TodoistTask))
    (new_tasks : List String) : List (String × Bool) :=
  if use_sbert = false then
    simpleDuplicateCheck new_tasks (getExistingTasks fetch "today")
  else
    checkDuplicateTasks encode cosine threshold new_tasks
      (getExistingTasks fetch "today")

/-- One entry of the `tasks_created` result list of
`upload_tasks_from_ocr`: a created-task dict (it carries an `id`), a
skipped-duplicate dict (`status` starts with `skipped`), or a failure
dict (`status` starts with `failed`). -/
inductive TaskOutcome where
  | created (content : String) (priority : ℕ) (id : String)
  | skippedDuplicate (content : String) (priority : ℕ)
  | failed (content : String) (priority : ℕ) (reason : String)
deriving Repr, DecidableEq

/-- The outcome the per-task branch of `upload_tasks_from_ocr` appends
for one task: duplicate ⇒ skipped; otherwise `create_task` — which may
raise (`Except.error`) — gives a created or a failed entry. -/
def taskOutcomeFor (dup : String → Bool)
    (create : String → Except String String) (priority : String → ℕ)
    (t : String) : TaskOutcome :=
  if dup t then TaskOutcome.skippedDuplicate t (priority t)
  else
    match create t with
    | Except.ok id => TaskOutcome.created t (priority t) id
    | Except.error e => TaskOutcome.failed t (priority t) e

/-- The `for task_content in new_tasks` loop of `upload_tasks_from_ocr`,
carrying the `tasks_created` accumulator: each iteration appends exactly
one outcome and a `create_task` exception is caught inside the iteration,
so the loop always continues with the remaining tasks. -/
def uploadLoop (dup : String → Bool)
    (create : String → Except String String) (priority : String → ℕ)
    (new_tasks : List String) (tasks_created : List TaskOutcome) :
    List TaskOutcome :=
  match new_tasks with
  | [] => tasks_created
  | t :: rest =>
      uploadLoop dup create priority rest
        (tasks_created ++ [taskOutcomeFor dup create priority t])

/-- `duplicate_results.get(task_content, False)` over the decision list
returned by the duplicate check. -/
def dupLookup (results : List (String × Bool)) (t : String) : Bool :=
  (results.lookup t).getD false

/-! ## Theorems -/

/-- Every non-raising iteration of the patch loop leaves `original`
untouched: each write in the source targets `updated_data` (or the
log). -/
theorem applyOne_preserves_original (s s' : ApplyState) (r : ReviewedEntry)
    (h : applyOne s r = Except.ok s') : s'.original = s.original := by
  unfold applyOne at h
  repeat' split at h
  all_goals first
    | exact Except.noConfusion h
    | (injection h with h₁; rw [← h₁])

/-- The patch loop never writes `original`, raising or not. -/
theorem applyLoop_preserves_original (rs : List ReviewedEntry) :
    ∀ s : ApplyState, (applyLoop s rs).1.original = s.original := by
  induction rs with
  | nil => intro s; rfl
  | cons r rest ih =>
    intro s
    rw [applyLoop]
    cases h : applyOne s r with
    | ok s₁ => rw [ih s₁, applyOne_preserves_original s s₁ r h]
    | error e => rfl

/-- C5 — `_apply_reviewed_items_to_ocr_data` works on a deep copy and
never mutates its input: the record reachable through the caller's
`original_data` reference is the same before and after the call,
whatever the reviewed items are (valid or invalid addresses, and also on
the exception path, where the function returns the untouched original);
and no iteration of the loop writes the original. -/
theorem applyReviewedItems_never_mutates_input :
    (∀ (original_data : List (String × PyVal)) (rs : List ReviewedEntry),
        (applyReviewedItems original_data rs).1 = original_data) ∧
    (∀ (s : ApplyState) (rs : List ReviewedEntry),
        (applyLoop s rs).1.original = s.original) := by
  constructor
  · intro original_data rs
    have h := applyLoop_preserves_original rs ⟨original_data, deepcopy original_data, []⟩
    unfold applyReviewedItems
    split
    next s hb => simpa [hb] using h
    next s hb => simpa [hb] using h
  · intro s rs
    exact applyLoop_preserves_original rs s

/-- C10 — the patch applier's bounds check `item_index <
len(section_items)` admits negative indices: for a reviewed item with a
negative `item_index` within `[-len, 0)` whose section exists and is a
non-empty list whose addressed element is a dict, the loop body takes no
error branch (the returned state carries `errors` unchanged) and
overwrites the element addressed from the end of the section, Python
negative-indexing style. -/
theorem applyOne_admits_negative_index (s : ApplyState) (r : ReviewedEntry)
    (sec : String) (idx : ℤ) (section_items : List PyVal)
    (fs : List (String × PyVal))
    (hsec : r.sectionKey = some sec) (hidx : r.item_index = some idx)
    (hne : sec ≠ "")
    (hget : dictGet s.updated sec = some (PyVal.list section_items))
    (hneg : idx < 0) (hlb : -(section_items.length : ℤ) ≤ idx)
    (htarget : section_items.get? ((section_items.length : ℤ) + idx).toNat
        = some (PyVal.dict fs)) :
    idx < (section_items.length : ℤ) ∧
    applyOne s r = Except.ok { s with
      updated := dictSet s.updated sec (PyVal.list
        (section_items.set ((section_items.length : ℤ) + idx).toNat
          (PyVal.dict (dictSet (dictSet fs r.field_name r.text) "confidence"
            (PyVal.num (r.confidence.getD 1)))))) } := by
  have hlen : 0 < section_items.length := by omega
  have hemp : section_items.isEmpty = false := by
    cases section_items with
    | nil => simp at hlen
    | cons a t => rfl
  have hj : (0 : ℤ) ≤ (section_items.length : ℤ) + idx ∧
      (section_items.length : ℤ) + idx < (section_items.length : ℤ) := by omega
  have hjn : ((section_items.length : ℤ) + idx).toNat < section_items.length := by
    omega
  have hpyidx : pyIdx section_items.length idx =
      (section_items.length : ℤ) + idx := by
    unfold pyIdx
    rw [if_neg (by omega)]
  have hgetidx : pyGetIndex section_items idx = Except.ok (PyVal.dict fs) := by
    unfold pyGetIndex
    rw [hpyidx, if_pos (by omega), htarget]
  have hset : pySetIndex section_items idx
      (PyVal.dict (dictSet (dictSet fs r.field_name r.text) "confidence"
        (PyVal.num (r.confidence.getD 1)))) =
      section_items.set ((section_items.length : ℤ) + idx).toNat
        (PyVal.dict (dictSet (dictSet fs r.field_name r.text) "confidence"
          (PyVal.num (r.confidence.getD 1)))) := by
    unfold pySetIndex
    rw [hpyidx]
  refine ⟨by omega, ?_⟩
  unfold applyOne
  simp only [hsec, hidx, hget]
  rw [if_pos ⟨hne, by simp [PyVal.truthy, hemp]⟩]
  rw [if_pos (by omega : idx < (section_items.length : ℤ))]
  simp only [hgetidx, hset]

/-- Concrete instance of the negative-index behaviour: `item_index = -1`
against a two-element section overwrites the last element and logs no
error. -/
theorem applyOne_admits_negative_index_witness :
    (-1 : ℤ) < (([PyVal.dict [("task", PyVal.str "one")],
        PyVal.dict [("task", PyVal.str "two")]] : List PyVal).length : ℤ) ∧
    applyOne
      ⟨[("to_do", PyVal.list [PyVal.dict [("task", PyVal.str "one")],
          PyVal.dict [("task", PyVal.str "two")]])],
       [("to_do", PyVal.list [PyVal.dict [("task", PyVal.str "one")],
          PyVal.dict [("task", PyVal.str "two")]])], []⟩
      ⟨some "to_do", some (-1), "task", PyVal.str "NEW", some 1⟩ =
    Except.ok
      ⟨[("to_do", PyVal.list [PyVal.dict [("task", PyVal.str "one")],
          PyVal.dict [("task", PyVal.str "two")]])],
       [("to_do", PyVal.list [PyVal.dict [("task", PyVal.str "one")],
          PyVal.dict [("task", PyVal.str "NEW"),
            ("confidence", PyVal.num 1)]])], []⟩ := by
  have h := applyOne_admits_negative_index
    ⟨[("to_do", PyVal.list [PyVal.dict [("task", PyVal.str "one")],
        PyVal.dict [("task", PyVal.str "two")]])],
     [("to_do", PyVal.list [PyVal.dict [("task", PyVal.str "one")],
        PyVal.dict [("task", PyVal.str "two")]])], []⟩
    ⟨some "to_do", some (-1), "task", PyVal.str "NEW", some 1⟩
    "to_do" (-1)
    [PyVal.dict [("task", PyVal.str "one")],
     PyVal.dict [("task", PyVal.str "two")]]
    [("task", PyVal.str "two")]
    rfl rfl (by decide) rfl (by norm_num) (by norm_num) rfl
  exact ⟨h.1, by rw [h.2]; rfl⟩

/-- Behaviour of one `submit` on an active state with the cursor in
range: the call succeeds and appends the accepted or edited entry. -/
theorem processEditedItem_step (st : ReviewState) (t : String)
    (cur : SessionItem) (ha : st.active = true)
    (hcur : st.items.get? st.current_index = some cur) :
    processEditedItem st t = some
      { st with
        reviewed_items := st.reviewed_items ++
          [if pyStrip t ≠ pyStrip cur.text then
              { cur with text := pyStrip t, confidence := 1 }
            else cur],
        current_index := st.current_index + 1,
        active :=
          if st.items.length ≤ st.current_index + 1 then false
          else st.active } := by
  unfold processEditedItem
  rw [ha]
  simp only [Bool.true_eq_false, if_false, hcur]

/-- Completing a run of submits: if the state is active exactly while the
cursor is short of the end and there is room for `texts.length` more
submissions, every submit succeeds, the cursor advances one per call, the
reviewed list grows one per call, and activity afterwards reflects the
final cursor. -/
theorem runSubmits_spec (texts : List String) :
    ∀ st : ReviewState,
      st.active = (if st.items.length ≤ st.current_index then false
        else true) →
      st.current_index + texts.length ≤ st.items.length →
      ∃ fin, runSubmits st texts = some fin ∧ fin.items = st.items ∧
        fin.current_index = st.current_index + texts.length ∧
        fin.reviewed_items.length =
          st.reviewed_items.length + texts.length ∧
        fin.active = (if st.items.length ≤
          st.current_index + texts.length then false else true) := by
  induction texts with
  | nil =>
    intro st ha hroom
    exact ⟨st, rfl, rfl, by simp, by simp, by simpa using ha⟩
  | cons t rest ih =>
    intro st ha hroom
    simp only [List.length_cons] at hroom
    have hlt : st.current_index < st.items.length := by omega
    have ha' : st.active = true := by rw [ha, if_neg (by omega)]
    obtain ⟨cur, hcur⟩ : ∃ cur, st.items.get? st.current_index = some cur :=
      List.get?_eq_get hlt ▸ ⟨_, rfl⟩
    have hstep := processEditedItem_step st t cur ha' hcur
    obtain ⟨fin, h₁, h₂, h₃, h₄, h₅⟩ := ih
      { st with
        reviewed_items := st.reviewed_items ++
          [if pyStrip t ≠ pyStrip cur.text then
              { cur with text := pyStrip t, confidence := 1 }
            else cur],
        current_index := st.current_index + 1,
        active :=
          if st.items.length ≤ st.current_index + 1 then false
          else st.active }
      (by dsimp only; rw [ha']) (by dsimp only; omega)
    dsimp only at h₂ h₃ h₄ h₅
    have hrun : runSubmits st (t :: rest) = some fin := by
      rw [runSubmits, hstep]
      exact h₁
    refine ⟨fin, hrun, h₂, ?_, ?_, ?_⟩
    · rw [h₃]; simp only [List.length_cons]; omega
    · rw [h₄]; simp only [List.length_append, List.length_cons]; simp; omega
    · rw [h₅]; simp only [List.length_cons]
      by_cases hc : st.items.length ≤ st.current_index + 1 + rest.length
      · rw [if_pos hc, if_pos (by omega)]
      · rw [if_neg hc, if_neg (by omega)]

/-- C1 — the review session over `N` flagged items: every successful
submit appends exactly one reviewed item, advances the cursor by exactly
one and leaves the item list unchanged; after any prefix of the `N`
submissions the cursor equals the number of submissions so far and never
exceeds `N`; and after exactly `N` submissions (accepted or edited) the
session is Completed (`active = false`) with exactly `N` reviewed
items. -/
theorem review_session_reaches_completed :
    (∀ (st st' : ReviewState) (t : String),
        processEditedItem st t = some st' →
        st'.reviewed_items.length = st.reviewed_items.length + 1 ∧
        st'.current_index = st.current_index + 1 ∧
        st'.items = st.items) ∧
    (∀ (items : List SessionItem) (ocr : List (String × PyVal))
        (pre suf : List String),
        items ≠ [] → (pre ++ suf).length = items.length →
        ∃ mid, runSubmits (setLowConfidenceReviewState items ocr) pre
            = some mid ∧
          mid.current_index = pre.length ∧
          mid.current_index ≤ items.length) ∧
    (∀ (items : List SessionItem) (ocr : List (String × PyVal))
        (texts : List String),
        items ≠ [] → texts.length = items.length →
        ∃ fin, runSubmits (setLowConfidenceReviewState items ocr) texts
            = some fin ∧
          fin.active = false ∧
          fin.reviewed_items.length = items.length ∧
          fin.current_index = items.length) := by
  refine ⟨?_, ?_, ?_⟩
  · intro st st' t h
    unfold processEditedItem at h
    split at h
    · exact Option.noConfusion h
    · split at h
      · exact Option.noConfusion h
      · obtain rfl := Option.some.inj h
        exact ⟨by simp, rfl, rfl⟩
  · intro items ocr pre suf hne hlen
    have hpos : 0 < items.length := List.length_pos.mpr hne
    simp only [List.length_append] at hlen
    obtain ⟨fin, h₁, h₂, h₃, h₄, h₅⟩ := runSubmits_spec pre
      (setLowConfidenceReviewState items ocr)
      (by simp only [setLowConfidenceReviewState]
          rw [if_neg (by omega)])
      (by simp only [setLowConfidenceReviewState]; omega)
    simp only [setLowConfidenceReviewState] at h₃
    exact ⟨fin, h₁, by omega, by omega⟩
  · intro items ocr texts hne hlen
    have hpos : 0 < items.length := List.length_pos.mpr hne
    obtain ⟨fin, h₁, h₂, h₃, h₄, h₅⟩ := runSubmits_spec texts
      (setLowConfidenceReviewState items ocr)
      (by simp only [setLowConfidenceReviewState]
          rw [if_neg (by omega)])
      (by simp only [setLowConfidenceReviewState]; omega)
    simp only [setLowConfidenceReviewState] at h₃ h₄ h₅
    refine ⟨fin, h₁, ?_, by simp at h₄; omega, by omega⟩
    rw [h₅, if_pos (by omega)]

/-- Concrete completion of a one-item review via the theorem above. -/
theorem review_session_reaches_completed_witness :
    ([⟨"a", 1/2, "s", "task", 0, []⟩] : List SessionItem) ≠ [] ∧
    (["b"] : List String).length =
      ([⟨"a", 1/2, "s", "task", 0, []⟩] : List SessionItem).length ∧
    ∃ fin, runSubmits (setLowConfidenceReviewState
        [⟨"a", 1/2, "s", "task", 0, []⟩] []) ["b"] = some fin ∧
      fin.active = false ∧ fin.reviewed_items.length = 1 ∧
      fin.current_index = 1 := by
  refine ⟨by simp, rfl, ?_⟩
  have h := review_session_reaches_completed.2.2
    [⟨"a", 1/2, "s", "task", 0, []⟩] [] ["b"] (by simp) rfl
  simpa using h

/-- C3 counterexample — starting a new review while one is Active does
not fail and does not leave the active session untouched: against an
active session with cursor 1 and one reviewed item, a fresh start
succeeds (`started`, no `review-already-active` error exists in this code
path) and replaces the state with cursor 0 and no reviewed items. -/
theorem start_review_while_active_not_an_error :
    (startReviewFromSession
        (some ⟨true, [⟨"new", 1/2, "s", "task", 0, []⟩], []⟩)
        (some ⟨[⟨"old", 1/2, "s", "task", 0, []⟩], 1,
          [⟨"old", 1/2, "s", "task", 0, []⟩], [], true⟩)).2 =
      StartResult.started ∧
    ((startReviewFromSession
        (some ⟨true, [⟨"new", 1/2, "s", "task", 0, []⟩], []⟩)
        (some ⟨[⟨"old", 1/2, "s", "task", 0, []⟩], 1,
          [⟨"old", 1/2, "s", "task", 0, []⟩], [], true⟩)).1.map
      fun st => (st.current_index, st.reviewed_items.length)) =
      some (0, 0) ∧
    (some (0, 0) : Option (ℕ × ℕ)) ≠ some (1, 1) ∧
    ((some ⟨[⟨"old", 1/2, "s", "task", 0, []⟩], 1,
        [⟨"old", 1/2, "s", "task", 0, []⟩], [], true⟩ :
      Option ReviewState).map
      fun st => (st.current_index, st.reviewed_items.length)) =
      some (1, 1) :=
  ⟨rfl, rfl, by decide, rfl⟩

/-- C3 amended — starting a review with a non-empty pending item list
always succeeds and silently installs a fresh review state (cursor 0,
empty reviewed list), whatever review state — Active included — the
session held before; no `review-already-active` check exists. -/
theorem startReviewFromSession_silently_replaces (p : PendingReview)
    (cur : Option ReviewState) (h : p.low_confidence_items ≠ []) :
    startReviewFromSession (some p) cur =
      (some (setLowConfidenceReviewState p.low_confidence_items
        p.ocr_data), StartResult.started) := by
  have hemp : p.low_confidence_items.isEmpty = false := by
    cases hi : p.low_confidence_items with
    | nil => exact absurd hi h
    | cons a t => rfl
  unfold startReviewFromSession
  cases hb : p.has_items <;> simp [hemp, hb]

/-- Concrete instance: a start over one pending item replaces the state
regardless of the (here Active) previous state. -/
theorem startReviewFromSession_silently_replaces_witness :
    ([⟨"new", 1/2, "s", "task", 0, []⟩] : List SessionItem) ≠ [] ∧
    startReviewFromSession
        (some ⟨true, [⟨"new", 1/2, "s", "task", 0, []⟩], []⟩)
        (some ⟨[⟨"old", 1/2, "s", "task", 0, []⟩], 1,
          [⟨"old", 1/2, "s", "task", 0, []⟩], [], true⟩) =
      (some (setLowConfidenceReviewState
        [⟨"new", 1/2, "s", "task", 0, []⟩] []), StartResult.started) :=
  ⟨by simp, startReviewFromSession_silently_replaces
    ⟨true, [⟨"new", 1/2, "s", "task", 0, []⟩], []⟩
    (some ⟨[⟨"old", 1/2, "s", "task", 0, []⟩], 1,
      [⟨"old", 1/2, "s", "task", 0, []⟩], [], true⟩)
    (by simp)⟩

/-- C4 counterexample — an accept-as-is submission does not set
`confidence = 1.0`: submitting the unchanged text `"a"` for an item with
confidence `0.5` appends that item with its original confidence `0.5`. -/
theorem accepted_item_keeps_original_confidence :
    ((processEditedItem
        ⟨[⟨"a", mkRat 1 2, "s", "task", 0, []⟩], 0, [], [], true⟩
        "a").map
      fun st => st.reviewed_items.map fun it => it.confidence) =
      some [mkRat 1 2] ∧
    mkRat 1 2 ≠ 1 :=
  ⟨by decide, by decide⟩

/-- C4 amended — what a submit appends: an edited submission (trimmed
text differs) appends an entry with the trimmed new text,
`confidence = 1.0` and the `original_item` snapshot preserved; an
accept-as-is submission appends the current flagged item unchanged —
keeping its original (low) confidence, not `1.0`. -/
theorem processEditedItem_appended_entry (st : ReviewState) (t : String)
    (cur : SessionItem) (ha : st.active = true)
    (hcur : st.items.get? st.current_index = some cur) :
    ∃ st' e, processEditedItem st t = some st' ∧
      st'.reviewed_items = st.reviewed_items ++ [e] ∧
      e.original_item = cur.original_item ∧
      (pyStrip t = pyStrip cur.text → e = cur) ∧
      (pyStrip t ≠ pyStrip cur.text →
        e.confidence = 1 ∧ e.text = pyStrip t ∧
        e.sectionName = cur.sectionName ∧
        e.field_name = cur.field_name ∧
        e.item_index = cur.item_index) := by
  refine ⟨_, _, processEditedItem_step st t cur ha hcur, rfl, ?_, ?_, ?_⟩
  · by_cases hc : pyStrip t = pyStrip cur.text <;> simp [hc]
  · intro hc; simp [hc]
  · intro hc; simp [hc]

/-- Concrete instance: an edited submission gets confidence `1.0` with
the snapshot preserved. -/
theorem processEditedItem_appended_entry_witness :
    (⟨[⟨"a", 1/2, "s", "task", 0, [("task", PyVal.str "a")]⟩], 0, [], [],
        true⟩ : ReviewState).active = true ∧
    ∃ st' e,
      processEditedItem
        ⟨[⟨"a", 1/2, "s", "task", 0, [("task", PyVal.str "a")]⟩], 0, [],
          [], true⟩ "b" = some st' ∧
      st'.reviewed_items = [] ++ [e] ∧
      e.original_item = [("task", PyVal.str "a")] ∧
      (pyStrip "b" = pyStrip "a" → e =
        ⟨"a", 1/2, "s", "task", 0, [("task", PyVal.str "a")]⟩) ∧
      (pyStrip "b" ≠ pyStrip "a" →
        e.confidence = 1 ∧ e.text = pyStrip "b" ∧ e.sectionName = "s" ∧
        e.field_name = "task" ∧ e.item_index = 0) := by
  refine ⟨rfl, ?_⟩
  have h := processEditedItem_appended_entry
    ⟨[⟨"a", 1/2, "s", "task", 0, [("task", PyVal.str "a")]⟩], 0, [], [],
      true⟩ "b" ⟨"a", 1/2, "s", "task", 0, [("task", PyVal.str "a")]⟩
    rfl rfl
  simpa using h

/-- C6 — fallback duplicate detection is strict case-insensitive
trim-only equality: a candidate is flagged as duplicate iff some
existing task equals it after `lower().strip()`; the Todoist-side
`_simple_duplicate_check` computes the same function; and on the
Scenario-C inputs, `"call dentist"` is a duplicate of `"Call dentist"`
while `"Call Dentist!"` (punctuation differs) and `"Buy milk"` are
not. -/
theorem fallback_duplicate_strict_equality :
    (∀ (ns es : List String) (c : String) (b : Bool),
        (c, b) ∈ fallbackDuplicateCheck ns es →
        (b = true ↔ ∃ e ∈ es, pyNorm c = pyNorm e)) ∧
    (∀ ns es : List String,
        simpleDuplicateCheck ns es = fallbackDuplicateCheck ns es) ∧
    fallbackDuplicateCheck ["call dentist", "Call Dentist!", "Buy milk"]
        ["Call dentist"] =
      [("call dentist", true), ("Call Dentist!", false),
       ("Buy milk", false)] := by
  refine ⟨?_, fun ns es => rfl, by decide⟩
  intro ns es c b hmem
  simp only [fallbackDuplicateCheck, List.mem_map] at hmem
  obtain ⟨t, ht, hq⟩ := hmem
  rw [Prod.ext_iff] at hq
  obtain ⟨h₁, h₂⟩ := hq
  subst h₁
  subst h₂
  simp [List.any_eq_true]

/-- Concrete instance of the characterisation at the flagged Scenario-C
candidate. -/
theorem fallback_duplicate_strict_equality_witness :
    (true = true ↔ ∃ e ∈ ["Call dentist"],
      pyNorm "call dentist" = pyNorm e) :=
  fallback_duplicate_strict_equality.1 ["call dentist"] ["Call dentist"]
    "call dentist" true (by decide)

/-- Unrolling the upload loop: the result is the accumulator followed by
one outcome per task, in input order. -/
theorem uploadLoop_eq (dup : String → Bool)
    (create : String → Except String String) (priority : String → ℕ) :
    ∀ (new_tasks : List String) (acc : List TaskOutcome),
      uploadLoop dup create priority new_tasks acc =
        acc ++ new_tasks.map (taskOutcomeFor dup create priority) := by
  intro new_tasks
  induction new_tasks with
  | nil => intro acc; simp [uploadLoop]
  | cons t rest ih => intro acc; simp [uploadLoop, ih]

/-- C7 — the upload loop yields exactly one outcome per input item,
aligned to input order: the result is the pointwise image of the task
list (so the `i`-th outcome is a function of the `i`-th task alone —
duplicates are skipped, creation failures produce a `failed` outcome for
that item only, and one failure never drops or aborts the rest); on the
Scenario-D input (3 unique items, the second `create_task` raising),
the result is created/failed/created with exactly one failure, none lost
or duplicated. -/
theorem upload_one_outcome_per_item :
    (∀ (dup : String → Bool) (create : String → Except String String)
        (priority : String → ℕ) (new_tasks : List String)
        (acc : List TaskOutcome),
        uploadLoop dup create priority new_tasks acc =
          acc ++ new_tasks.map (taskOutcomeFor dup create priority)) ∧
    (∀ dup create priority (new_tasks : List String),
        (uploadLoop dup create priority new_tasks []).length =
          new_tasks.length) ∧
    (∀ dup create priority (new_tasks : List String) (i : ℕ) (t : String),
        new_tasks.get? i = some t →
        (uploadLoop dup create priority new_tasks []).get? i =
          some (taskOutcomeFor dup create priority t)) ∧
    (uploadLoop (fun _ => false)
        (fun t => if t = "task-2" then Except.error "boom"
          else Except.ok (String.append "id-" t))
        (fun _ => 3) ["task-1", "task-2", "task-3"] [] =
      [TaskOutcome.created "task-1" 3 "id-task-1",
       TaskOutcome.failed "task-2" 3 "boom",
       TaskOutcome.created "task-3" 3 "id-task-3"] ∧
     (uploadLoop (fun _ => false)
        (fun t => if t = "task-2" then Except.error "boom"
          else Except.ok (String.append "id-" t))
        (fun _ => 3) ["task-1", "task-2", "task-3"] []).countP
        (fun o => match o with
          | TaskOutcome.failed _ _ _ => true
          | _ => false) = 1 ∧
     (uploadLoop (fun _ => false)
        (fun t => if t = "task-2" then Except.error "boom"
          else Except.ok (String.append "id-" t))
        (fun _ => 3) ["task-1", "task-2", "task-3"] []).countP
        (fun o => match o with
          | TaskOutcome.created _ _ _ => true
          | _ => false) = 2) := by
  refine ⟨uploadLoop_eq, ?_, ?_, by decide, by decide, by decide⟩
  · intro dup create priority new_tasks
    rw [uploadLoop_eq]
    simp
  · intro dup create priority new_tasks i t hget
    rw [uploadLoop_eq]
    simp only [List.nil_append]
    rw [List.get?_eq_getElem?] at hget ⊢
    simp [List.getElem?_map, hget]

/-- Concrete instance of outcome alignment at position 1 of Scenario
D. -/
theorem upload_one_outcome_per_item_witness :
    (["task-1", "task-2", "task-3"] : List String).get? 1 =
        some "task-2" ∧
    (uploadLoop (fun _ => false)
        (fun t => if t = "task-2" then Except.error "boom"
          else Except.ok (String.append "id-" t))
        (fun _ => 3) ["task-1", "task-2", "task-3"] []).get? 1 =
      some (taskOutcomeFor (fun _ => false)
        (fun t => if t = "task-2" then Except.error "boom"
          else Except.ok (String.append "id-" t))
        (fun _ => 3) "task-2") :=
  ⟨rfl, upload_one_outcome_per_item.2.2.1 (fun _ => false)
    (fun t => if t = "task-2" then Except.error "boom"
      else Except.ok (String.append "id-" t))
    (fun _ => 3) ["task-1", "task-2", "task-3"] 1 "task-2" rfl⟩

/-- C8 counterexample — the cache key is not a hash of normalised text:
`"Call dentist"` and `" call DENTIST "` are equal after trim+lowercase,
yet `_get_text_hash` (which hashes the raw text; the external `md5` is
instantiated with the injective `id`) gives them different keys, so
computing both embeddings leaves two cache entries and can return two
different vectors (here with a model keyed on raw length). -/
theorem embedding_cache_key_not_normalized :
    pyStrip (pyLower "Call dentist") =
      pyStrip (pyLower " call DENTIST ") ∧
    getTextHash id "Call dentist" ≠ getTextHash id " call DENTIST " ∧
    (getEmbedding id (fun t => [(t.length : ℚ)])
        (getEmbedding id (fun t => [(t.length : ℚ)]) []
          "Call dentist").2 " call DENTIST ").1 ≠
      (getEmbedding id (fun t => [(t.length : ℚ)]) [] "Call dentist").1 ∧
    (getEmbedding id (fun t => [(t.length : ℚ)])
        (getEmbedding id (fun t => [(t.length : ℚ)]) []
          "Call dentist").2 " call DENTIST ").2.length = 2 := by
  refine ⟨by decide, by decide, ?_, by decide⟩
  intro h
  simp only [getEmbedding, getTextHash] at h
  exact absurd h (by decide)

/-- C8 amended — the cache key is the `md5` digest of the raw text
(`_get_text_hash` applies no normalisation): whenever two texts have
equal digests — in particular whenever they are byte-identical — the
second `get_embedding` call is a cache hit returning the first call's
vector with the cache unchanged. -/
theorem getEmbedding_raw_key_cache_hit (md5 : String → String)
    (encode : String → List ℚ) (cache : List (String × List ℚ))
    (t₁ t₂ : String) (h : md5 t₁ = md5 t₂) :
    getTextHash md5 t₁ = getTextHash md5 t₂ ∧
    getEmbedding md5 encode (getEmbedding md5 encode cache t₁).2 t₂ =
      ((getEmbedding md5 encode cache t₁).1,
       (getEmbedding md5 encode cache t₁).2) := by
  refine ⟨h, ?_⟩
  unfold getEmbedding getTextHash
  cases hl : cache.lookup (md5 t₁) with
  | some v => simp [← h, hl]
  | none => simp [← h, hl, List.lookup]

/-- Concrete instance: a repeated identical text is served from the
cache. -/
theorem getEmbedding_raw_key_cache_hit_witness :
    getTextHash id "a" = getTextHash id "a" ∧
    getEmbedding id (fun _ => [1]) (getEmbedding id (fun _ => [1]) []
        "a").2 "a" =
      ((getEmbedding id (fun _ => [1]) [] "a").1,
       (getEmbedding id (fun _ => [1]) [] "a").2) :=
  getEmbedding_raw_key_cache_hit id (fun _ => [1]) [] "a" "a" rfl

/-- `duplicate_results.get(content, False)` over an all-`False` decision
list is `False` for every content. -/
theorem dupLookup_map_false (new_tasks : List String) (t : String) :
    dupLookup (new_tasks.map fun s => (s, false)) t = false := by
  induction new_tasks with
  | nil => rfl
  | cons a l ih =>
    unfold dupLookup at ih ⊢
    simp only [List.map_cons, List.lookup]
    cases h : (t == a) with
    | true => rfl
    | false => exact ih

/-- C9 — when listing existing tasks raises, `get_existing_tasks`
returns `[]` instead of propagating; with no existing tasks both
duplicate checks classify every candidate as unique, so
`check_duplicates_intelligently` over a failing fetch marks everything
unique (on either engine path) and the upload loop then skips nothing —
every candidate proceeds to creation. -/
theorem failed_fetch_means_all_unique :
    (∀ (err : String) (due_date : String),
        getExistingTasks (Except.error err) due_date = []) ∧
    (∀ new_tasks : List String, simpleDuplicateCheck new_tasks [] =
        new_tasks.map fun t => (t, false)) ∧
    (∀ (encode : String → List ℚ) (cosine : List ℚ → List ℚ → ℚ)
        (threshold : ℚ) (new_tasks : List String),
        checkDuplicateTasks encode cosine threshold new_tasks [] =
          new_tasks.map fun t => (t, false)) ∧
    (∀ (use_sbert : Bool) (encode : String → List ℚ)
        (cosine : List ℚ → List ℚ → ℚ) (threshold : ℚ) (err : String)
        (new_tasks : List String),
        checkDuplicatesIntelligently use_sbert encode cosine threshold
          (Except.error err) new_tasks =
          new_tasks.map fun t => (t, false)) ∧
    (∀ (use_sbert : Bool) (encode : String → List ℚ)
        (cosine : List ℚ → List ℚ → ℚ) (threshold : ℚ) (err : String)
        (create : String → Except String String) (priority : String → ℕ)
        (new_tasks : List String),
        (uploadLoop (dupLookup (checkDuplicatesIntelligently use_sbert
            encode cosine threshold (Except.error err) new_tasks))
          create priority new_tasks []).all
          (fun o => match o with
            | TaskOutcome.skippedDuplicate _ _ => false
            | _ => true) = true) := by
  have h₁ : ∀ (err due_date : String),
      getExistingTasks (Except.error err) due_date = [] := fun _ _ => rfl
  have h₂ : ∀ new_tasks : List String, simpleDuplicateCheck new_tasks [] =
      new_tasks.map fun t => (t, false) := by
    intro new_tasks
    simp [simpleDuplicateCheck]
  have h₃ : ∀ (encode : String → List ℚ) (cosine : List ℚ → List ℚ → ℚ)
      (threshold : ℚ) (new_tasks : List String),
      checkDuplicateTasks encode cosine threshold new_tasks [] =
        new_tasks.map fun t => (t, false) := by
    intro encode cosine threshold new_tasks
    simp [checkDuplicateTasks]
  have h₄ : ∀ (use_sbert : Bool) (encode : String → List ℚ)
      (cosine : List ℚ → List ℚ → ℚ) (threshold : ℚ) (err : String)
      (new_tasks : List String),
      checkDuplicatesIntelligently use_sbert encode cosine threshold
        (Except.error err) new_tasks =
        new_tasks.map fun t => (t, false) := by
    intro use_sbert encode cosine threshold err new_tasks
    cases use_sbert with
    | false =>
      simp only [checkDuplicatesIntelligently, if_pos rfl]
      rw [h₁ err "today"]
      exact h₂ new_tasks
    | true =>
      simp only [checkDuplicatesIntelligently]
      rw [if_neg (by simp), h₁ err "today"]
      exact h₃ encode cosine threshold new_tasks
  refine ⟨h₁, h₂, h₃, h₄, ?_⟩
  intro use_sbert encode cosine threshold err create priority new_tasks
  rw [h₄, uploadLoop_eq]
  simp only [List.nil_append, List.all_eq_true, List.mem_map]
  rintro o ⟨t, ht, rfl⟩
  unfold taskOutcomeFor
  rw [dupLookup_map_false, if_neg (by simp)]
  cases create t <;> rfl

/-- A field value returned by the `or`-chain is always truthy (the chain
skips absent and falsy candidates). -/
theorem resolveFieldAux_truthy (item : List (String × PyVal)) :
    ∀ (ks : List String) (kv : String × PyVal),
      resolveFieldAux item ks = some kv → kv.2.truthy = true := by
  intro ks
  induction ks with
  | nil => intro kv h; exact Option.noConfusion h
  | cons k ks ih =>
    intro kv h
    unfold resolveFieldAux at h
    split at h
    · split at h
      · obtain rfl := Option.some.inj h
        rename_i hv
        simpa using hv
      · exact ih kv h
    · exact ih kv h

/-- Membership in the inner per-section loop, with the enumeration
started at `i₀`. -/
theorem detectItems_mem_iff (sec : String) (τ : ℚ) (items : List PyVal) :
    ∀ (i₀ : ℕ) (f : FlaggedItem),
      f ∈ detectItems sec τ i₀ items ↔
      ∃ j fs kv c, items.get? j = some (PyVal.dict fs) ∧
        resolveField fs = some kv ∧
        dictGet fs "confidence" = some (PyVal.num c) ∧
        c ≠ 0 ∧ c < τ ∧ f = ⟨kv.2, c, sec, kv.1, i₀ + j, fs⟩ := by
  induction items with
  | nil => intro i₀ f; simp [detectItems]
  | cons it rest ih =>
    intro i₀ f
    simp only [detectItems, List.mem_append]
    constructor
    · rintro (h | h)
      · cases it with
        | str s => simp at h
        | num q => simp at h
        | none => simp at h
        | list xs => simp at h
        | dict fs =>
          cases hr : resolveField fs with
          | none => simp [hr] at h
          | some kv =>
            cases hc : dictGet fs "confidence" with
            | none => simp [hr, hc] at h
            | some cv =>
              cases cv with
              | num c =>
                by_cases hcond : c ≠ 0 ∧ c < τ
                · simp only [hr, hc] at h
                  rw [if_pos hcond] at h
                  refine ⟨0, fs, kv, c, rfl, hr, hc, hcond.1, hcond.2, ?_⟩
                  simpa using h
                · simp only [hr, hc] at h
                  rw [if_neg hcond] at h
                  exact absurd h (List.not_mem_nil f)
              | str s => simp [hr, hc] at h
              | none => simp [hr, hc] at h
              | list xs => simp [hr, hc] at h
              | dict gs => simp [hr, hc] at h
      · obtain ⟨j, fs, kv, c, h1, h2, h3, h4, h5, h6⟩ := (ih (i₀ + 1) f).mp h
        refine ⟨j + 1, fs, kv, c, by simpa using h1, h2, h3, h4, h5, ?_⟩
        rw [h6]
        simp only [FlaggedItem.mk.injEq, and_true, true_and]
        omega
    · rintro ⟨j, fs, kv, c, h1, h2, h3, h4, h5, h6⟩
      cases j with
      | zero =>
        left
        have hit : it = PyVal.dict fs := by simpa using h1
        subst hit
        simp only [h2, h3]
        rw [if_pos ⟨h4, h5⟩]
        simp only [List.mem_singleton]
        rw [h6]
        simp only [FlaggedItem.mk.injEq, and_true, true_and]
        omega
      | succ j' =>
        right
        refine (ih (i₀ + 1) f).mpr ⟨j', fs, kv, c, by simpa using h1,
          h2, h3, h4, h5, ?_⟩
        rw [h6]
        simp only [FlaggedItem.mk.injEq, and_true, true_and]
        omega

/-- Membership in the full triage result. -/
theorem detect_mem_iff (τ : ℚ) :
    ∀ (data : List (String × PyVal)) (f : FlaggedItem),
      f ∈ detectLowConfidenceItems data τ ↔
      ∃ sec items j fs kv c, (sec, PyVal.list items) ∈ data ∧
        items.get? j = some (PyVal.dict fs) ∧
        resolveField fs = some kv ∧
        dictGet fs "confidence" = some (PyVal.num c) ∧
        c ≠ 0 ∧ c < τ ∧ f = ⟨kv.2, c, sec, kv.1, j, fs⟩ := by
  intro data
  induction data with
  | nil => intro f; simp [detectLowConfidenceItems]
  | cons p rest ih =>
    intro f
    obtain ⟨sec, v⟩ := p
    simp only [detectLowConfidenceItems, List.mem_append]
    constructor
    · rintro (h | h)
      · cases v with
        | str s => simp at h
        | num q => simp at h
        | none => simp at h
        | dict gs => simp at h
        | list items =>
          dsimp only at h
          by_cases he : items.isEmpty
          · rw [if_pos he] at h
            exact absurd h (List.not_mem_nil f)
          · rw [if_neg he] at h
            obtain ⟨j, fs, kv, c, h1, h2, h3, h4, h5, h6⟩ :=
              (detectItems_mem_iff sec τ items 0 f).mp h
            exact ⟨sec, items, j, fs, kv, c, List.mem_cons_self _ _,
              h1, h2, h3, h4, h5, by simpa using h6⟩
      · obtain ⟨sec', items, j, fs, kv, c, hmem, h1, h2, h3, h4, h5, h6⟩ :=
          (ih f).mp h
        exact ⟨sec', items, j, fs, kv, c, List.mem_cons_of_mem _ hmem,
          h1, h2, h3, h4, h5, h6⟩
    · rintro ⟨sec', items, j, fs, kv, c, hmem, h1, h2, h3, h4, h5, h6⟩
      rcases List.mem_cons.mp hmem with heq | hmem'
      · obtain ⟨rfl, rfl⟩ : sec' = sec ∧ PyVal.list items = v :=
          ⟨congrArg Prod.fst heq, congrArg Prod.snd heq⟩
        left
        dsimp only
        have hne : items.isEmpty = false := by
          cases items with
          | nil => simp at h1
          | cons a t => rfl
        rw [if_neg (by simp [hne])]
        exact (detectItems_mem_iff sec' τ items 0 f).mpr
          ⟨j, fs, kv, c, h1, h2, h3, h4, h5, by simpa using h6⟩
      · right
        exact (ih f).mpr ⟨sec', items, j, fs, kv, c, hmem',
          h1, h2, h3, h4, h5, h6⟩

/-- C2 amended — characterisation of the triage result: a flagged item
is returned for exactly the elements of list-shaped sections that are
dicts whose `or`-chain resolves a truthy (non-empty) text and whose
`confidence` key holds a number that is *nonzero* and strictly below the
threshold (`confidence and confidence < threshold`); in particular every
returned item has `confidence < τ` and truthy text, an item without a
`confidence` key is never returned, and — beyond the original claim — an
item whose confidence is present but `0` (falsy in Python) is also never
returned. -/
theorem detect_low_confidence_characterization :
    (∀ (data : List (String × PyVal)) (τ : ℚ) (f : FlaggedItem),
        f ∈ detectLowConfidenceItems data τ ↔
        ∃ sec items j fs kv c, (sec, PyVal.list items) ∈ data ∧
          items.get? j = some (PyVal.dict fs) ∧
          resolveField fs = some kv ∧
          dictGet fs "confidence" = some (PyVal.num c) ∧
          c ≠ 0 ∧ c < τ ∧ f = ⟨kv.2, c, sec, kv.1, j, fs⟩) ∧
    (∀ (data : List (String × PyVal)) (τ : ℚ) (f : FlaggedItem),
        f ∈ detectLowConfidenceItems data τ →
        f.confidence ≠ 0 ∧ f.confidence < τ ∧ f.text.truthy = true ∧
        dictGet f.original_item "confidence" =
          some (PyVal.num f.confidence)) := by
  have hiff := detect_mem_iff
  refine ⟨fun data τ f => hiff τ data f, ?_⟩
  intro data τ f h
  obtain ⟨sec, items, j, fs, kv, c, hmem, h1, h2, h3, h4, h5, h6⟩ :=
    (hiff τ data f).mp h
  subst h6
  exact ⟨h4, h5, resolveFieldAux_truthy fs _ kv h2, h3⟩

/-- C2 counterexample to the original claim — an item whose confidence
is present and strictly below the threshold but equal to `0` is *not*
flagged (Python's `confidence and ...` treats `0.0` as missing), even
though its resolved text is truthy: the claim's "confidence present and
strictly below τ ⇒ returned" fails here. -/
theorem confidence_zero_item_not_flagged :
    detectLowConfidenceItems
      [("to_do", PyVal.list [PyVal.dict
        [("task", PyVal.str "x"), ("confidence", PyVal.num 0)]])]
      (mkRat 9 10) = [] ∧
    dictGet [("task", PyVal.str "x"), ("confidence", PyVal.num 0)]
      "confidence" = some (PyVal.num 0) ∧
    resolveField [("task", PyVal.str "x"), ("confidence", PyVal.num 0)] =
      some ("task", PyVal.str "x") ∧
    (PyVal.str "x").truthy = true ∧
    (0 : ℚ) < mkRat 9 10 :=
  ⟨rfl, rfl, rfl, rfl, by decide⟩

/-- Concrete instance (the spec's Scenario A): the one item of `to_do`
with confidence `0.6 < 0.9` and truthy task text is flagged, at index
1. -/
theorem detect_low_confidence_characterization_witness :
    (⟨PyVal.str "Fix the report", mkRat 6 10, "to_do", "task", 1,
      [("task", PyVal.str "Fix the report"),
       ("confidence", PyVal.num (mkRat 6 10))]⟩ : FlaggedItem) ∈
      detectLowConfidenceItems
        [("to_do", PyVal.list
          [PyVal.dict [("task", PyVal.str "Call dentist"),
            ("confidence", PyVal.num (mkRat 95 100))],
           PyVal.dict [("task", PyVal.str "Fix the report"),
            ("confidence", PyVal.num (mkRat 6 10))]])]
        (mkRat 9 10) :=
  (detect_low_confidence_characterization.1 _ _ _).mpr
    ⟨"to_do",
     [PyVal.dict [("task", PyVal.str "Call dentist"),
        ("confidence", PyVal.num (mkRat 95 100))],
      PyVal.dict [("task", PyVal.str "Fix the report"),
        ("confidence", PyVal.num (mkRat 6 10))]],
     1,
     [("task", PyVal.str "Fix the report"),
      ("confidence", PyVal.num (mkRat 6 10))],
     ("task", PyVal.str "Fix the report"),
     mkRat 6 10,
     List.mem_cons_self _ _, rfl, rfl, rfl, by decide, by decide, rfl⟩
